import Mathlib

/-!
Verification of the Tag-Timer plugin core (src/main.js) against its
natural-language specification.

The source file concatenates two historical revisions of the plugin.  The
current revision provides `TimerDataUpdater`, `AnalyticsStore`,
`TimerRenderer` and `TimerParser`; the legacy revision provides its own
`TimerDataUpdater.calculate` (uncapped accrual) and a legacy marker decoder
chain (`TimerParser.parse` with versions, `parseOldFormat`,
`parseNewFormat`).  Both revisions are embedded here.

Conventions of the embedding:
- JS numbers that the program only ever uses at integer values are `Int`
  (durations, epoch seconds, epoch milliseconds).
- JS `x || 0` on a number collapses the falsy values 0 and NaN to 0; on an
  integer domain this is `jsOrZero`.
- The clock reads `Date.now()` are passed in explicitly as `nowMs`
  parameters; `TimerUtils.getCurrentTimestamp()` is the explicit `now`.
- Strings are processed as their `List Char` data where character-level
  scanning is involved.
-/

/-- `CONSTANTS.BASE62_CHARS` of src/main.js. -/
def BASE62_CHARS : List Char :=
  "0123456789abcdefghijklmnopqrstuvwxyzABCDEFGHIJKLMNOPQRSTUVWXYZ".data

/-- `CONSTANTS.MAX_UPDATE_STEP_SEC` (cap a single accrual step to at most 5s). -/
def MAX_UPDATE_STEP_SEC : Int := 5

/-- `CONSTANTS.SLEEP_GAP_SEC` (treat gaps over 60s as sleep). -/
def SLEEP_GAP_SEC : Int := 60

/-- `CONSTANTS.RETENTION_DAYS`. -/
def RETENTION_DAYS : Int := 30

/-- JS `v || 0` for a number `v`: 0 (and NaN) are falsy and give 0; on an
integer domain this is the identity written the way the source writes it. -/
def jsOrZero (v : Int) : Int := if v = 0 then 0 else v

/-- Inner loop of `TimerUtils.compressId`: repeatedly divide by 62 and
collect base-62 digit characters (most significant first).  The structural
fuel (always larger than `num`, which strictly decreases) lets the kernel
evaluate the definition. -/
def compressIdAux : Nat → Nat → List Char
  | 0, _ => []
  | fuel + 1, num =>
    if num = 0 then []
    else compressIdAux fuel (num / 62) ++ [BASE62_CHARS.getD (num % 62) ' ']

/-- `TimerUtils.compressId(timestamp)`: `'t0'` for 0, otherwise base-62
digits of the timestamp; for a negative input the JS loop body never runs
and the result is the empty string, which `compressIdAux` reproduces via
`Int.toNat`. -/
def compressId (timestamp : Int) : String :=
  if timestamp = 0 then "t0"
  else ⟨compressIdAux (timestamp.toNat + 1) timestamp.toNat⟩

/-- The timer state carried by markers and by the engine:
`{class, timerId, dur, ts}` with `class` one of the strings `"timer-r"` /
`"timer-p"` in well-formed states. -/
structure TimerData where
  «class» : String
  timerId : String
  dur : Int
  ts : Int
  deriving DecidableEq, Repr

namespace TimerDataUpdater

/-- `TimerDataUpdater.elapsedCapped(oldData, now)` of the current revision
(src/main.js lines 108-112).  Note the source reads the timestamp as
`oldData?.ts || now`: a stored timestamp of 0 is falsy in JS and is
replaced by `now`, which makes the gap 0. -/
def elapsedCapped (oldData : TimerData) (now : Int) : Int :=
  let tsv := if oldData.ts = 0 then now else oldData.ts
  let gap := max 0 (now - tsv)
  if SLEEP_GAP_SEC < gap then 0 else min gap MAX_UPDATE_STEP_SEC

/-- `TimerDataUpdater.calculate(action, oldData, now)` of the current
revision (src/main.js lines 113-124).  `nowMs` is the `Date.now()` read
made by `TimerUtils.compressId()` when `init` creates a fresh id. -/
def calculate (action : String) (oldData : TimerData) (now : Int) (nowMs : Int) :
    TimerData :=
  match action with
  | "init" =>
      { «class» := "timer-r", timerId := compressId nowMs, dur := 0, ts := now }
  | "continue" => { oldData with «class» := "timer-r", ts := now }
  | "pause" =>
      { oldData with
        «class» := "timer-p"
        dur := jsOrZero oldData.dur + elapsedCapped oldData now
        ts := now }
  | "update" =>
      if oldData.«class» ≠ "timer-r" then oldData
      else
        { oldData with
          dur := jsOrZero oldData.dur + elapsedCapped oldData now
          ts := now }
  | "restore" => { oldData with «class» := "timer-r", ts := now }
  | "forcepause" => { oldData with «class» := "timer-p" }
  | _ => oldData

end TimerDataUpdater

namespace TimerDataUpdaterLegacy

/-- `TimerDataUpdater.calculate` of the legacy revision (src/main.js lines
784-821): accrual is uncapped (`now - oldData.ts` with no sleep-gap or
step-cap handling) and `restore` backfills the elapsed interval. -/
def calculate (action : String) (oldData : TimerData) (now : Int) (nowMs : Int) :
    TimerData :=
  match action with
  | "init" =>
      { «class» := "timer-r", timerId := compressId nowMs, dur := 0, ts := now }
  | "continue" => { oldData with «class» := "timer-r", ts := now }
  | "pause" =>
      let elapsed := now - oldData.ts
      { oldData with
        «class» := "timer-p"
        dur := jsOrZero oldData.dur + elapsed
        ts := now }
  | "update" =>
      if oldData.«class» ≠ "timer-r" then oldData
      else
        let updateElapsed := now - oldData.ts
        { oldData with dur := jsOrZero oldData.dur + updateElapsed, ts := now }
  | "restore" =>
      let restoreElapsed := now - oldData.ts
      { oldData with
        «class» := "timer-r"
        dur := jsOrZero oldData.dur + restoreElapsed
        ts := now }
  | "forcepause" => { oldData with «class» := "timer-p" }
  | _ => oldData

end TimerDataUpdaterLegacy

/-- The accrual step exactly as the spec words it for `cappedElapsed(now)`:
`gap = max(0, now − lastEventEpochSeconds)`; if `gap > sleepGapSeconds`
return 0, otherwise `min(gap, maxStepSeconds)`. -/
def specAccrualStep (ts now : Int) : Int :=
  let gap := max 0 (now - ts)
  if SLEEP_GAP_SEC < gap then 0 else min gap MAX_UPDATE_STEP_SEC

/-- Helper: the current calculate leaves the state unchanged on every
unrecognized action string (the default switch branch). -/
theorem calculate_eq_of_unrecognized (a : String) (s : TimerData) (now nowMs : Int)
    (h1 : a ≠ "init") (h2 : a ≠ "continue") (h3 : a ≠ "pause") (h4 : a ≠ "update")
    (h5 : a ≠ "restore") (h6 : a ≠ "forcepause") :
    TimerDataUpdater.calculate a s now nowMs = s := by
  unfold TimerDataUpdater.calculate
  split <;> simp_all

/-- Helper: the legacy calculate leaves the state unchanged on every
unrecognized action string. -/
theorem legacy_calculate_eq_of_unrecognized (a : String) (s : TimerData) (now nowMs : Int)
    (h1 : a ≠ "init") (h2 : a ≠ "continue") (h3 : a ≠ "pause") (h4 : a ≠ "update")
    (h5 : a ≠ "restore") (h6 : a ≠ "forcepause") :
    TimerDataUpdaterLegacy.calculate a s now nowMs = s := by
  unfold TimerDataUpdaterLegacy.calculate
  split <;> simp_all

/-- C1 (amended): for every prior state whose timestamp is a nonzero
integer and every integer `now`, the accrual step credited by a tick
(`update` on a running state) or by `pause` equals the spec formula
`gap = max(0, now − ts); if gap > 60 then 0 else min gap 5`.  The
restriction `ts ≠ 0` is forced by the source reading `oldData?.ts || now`,
which treats a stored timestamp of 0 as missing. -/
theorem c1_accrual_step (s : TimerData) (now nowMs : Int) (h : s.ts ≠ 0) :
    TimerDataUpdater.elapsedCapped s now = specAccrualStep s.ts now ∧
    (TimerDataUpdater.calculate "pause" s now nowMs).dur
      = jsOrZero s.dur + specAccrualStep s.ts now ∧
    (s.«class» = "timer-r" →
      (TimerDataUpdater.calculate "update" s now nowMs).dur
        = jsOrZero s.dur + specAccrualStep s.ts now) := by
  have he : TimerDataUpdater.elapsedCapped s now = specAccrualStep s.ts now := by
    unfold TimerDataUpdater.elapsedCapped specAccrualStep
    simp [h]
  refine ⟨he, ?_, ?_⟩
  · show jsOrZero s.dur + TimerDataUpdater.elapsedCapped s now = _
    rw [he]
  · intro hr
    show (if s.«class» ≠ "timer-r" then s else
      { s with dur := jsOrZero s.dur + TimerDataUpdater.elapsedCapped s now,
               ts := now }).dur = _
    rw [if_neg (by simp [hr]), he]

/-- C1 witness: the spec example `lastEvent=1000, now=1010` (gap 10)
credits `min(10, 5) = 5`. -/
theorem c1_accrual_step_witness :
    TimerDataUpdater.elapsedCapped ⟨"timer-r", "a", 0, 1000⟩ 1010
      = specAccrualStep 1000 1010 ∧
    (TimerDataUpdater.calculate "pause" ⟨"timer-r", "a", 0, 1000⟩ 1010 0).dur
      = jsOrZero (0 : Int) + specAccrualStep 1000 1010 ∧
    specAccrualStep 1000 1010 = 5 :=
  ⟨(c1_accrual_step ⟨"timer-r", "a", 0, 1000⟩ 1010 0 (by decide)).1,
   (c1_accrual_step ⟨"timer-r", "a", 0, 1000⟩ 1010 0 (by decide)).2.1,
   by decide⟩

/-- C1 counterexample: at `ts = 0, now = 10` the code yields step 0 (the
falsy timestamp is replaced by `now`), while the claimed formula
`min(max(0, 10 − 0), 5) = 5` does not. -/
theorem c1_counterexample :
    TimerDataUpdater.elapsedCapped ⟨"timer-r", "a", 0, 0⟩ 10 ≠ specAccrualStep 0 10 := by
  decide

/-- C4: `continue` on a paused state keeps the accumulated duration and
turns the state running; `restore` from any state does the same (no
backfill in either case). -/
theorem c4_no_backfill (s : TimerData) (now nowMs : Int) :
    (s.«class» = "timer-p" →
      (TimerDataUpdater.calculate "continue" s now nowMs).dur = s.dur ∧
      (TimerDataUpdater.calculate "continue" s now nowMs).«class» = "timer-r") ∧
    (TimerDataUpdater.calculate "restore" s now nowMs).dur = s.dur ∧
    (TimerDataUpdater.calculate "restore" s now nowMs).«class» = "timer-r" :=
  ⟨fun _ => ⟨rfl, rfl⟩, rfl, rfl⟩

/-- C4 witness: the spec example, a paused state with `dur = 42` continued
at `now = 500`. -/
theorem c4_no_backfill_witness :
    (TimerDataUpdater.calculate "continue" ⟨"timer-p", "a", 42, 100⟩ 500 0).dur = 42 ∧
    (TimerDataUpdater.calculate "continue" ⟨"timer-p", "a", 42, 100⟩ 500 0).«class»
      = "timer-r" :=
  (c4_no_backfill ⟨"timer-p", "a", 42, 100⟩ 500 0).1 rfl

/-- C7 (amended): the two revisions of `calculate` agree on `init`
(given the same clock reading), `continue`, `forcepause` and every
unrecognized action, but not in general: they differ on `pause`, `update`
and `restore`, where the legacy revision credits the raw uncapped elapsed
time and backfills on restore. -/
theorem c7_revisions_agree_off_accrual (a : String) (s : TimerData) (now nowMs : Int)
    (h3 : a ≠ "pause") (h4 : a ≠ "update") (h5 : a ≠ "restore") :
    TimerDataUpdater.calculate a s now nowMs
      = TimerDataUpdaterLegacy.calculate a s now nowMs := by
  by_cases h1 : a = "init"
  · subst h1; rfl
  by_cases h2 : a = "continue"
  · subst h2; rfl
  by_cases h6 : a = "forcepause"
  · subst h6; rfl
  rw [calculate_eq_of_unrecognized a s now nowMs h1 h2 h3 h4 h5 h6,
    legacy_calculate_eq_of_unrecognized a s now nowMs h1 h2 h3 h4 h5 h6]

/-- C7 witness: both revisions give the same result for `continue` on a
concrete paused state. -/
theorem c7_revisions_agree_witness :
    TimerDataUpdater.calculate "continue" ⟨"timer-p", "a", 7, 100⟩ 200 0
      = TimerDataUpdaterLegacy.calculate "continue" ⟨"timer-p", "a", 7, 100⟩ 200 0 :=
  c7_revisions_agree_off_accrual "continue" ⟨"timer-p", "a", 7, 100⟩ 200 0
    (by decide) (by decide) (by decide)

/-- C7 counterexample: `restore` on a paused state at `ts = 10, now = 20`
keeps `dur = 0` in the current revision but backfills `dur = 10` in the
legacy revision, so the two revisions do not compute the same result. -/
theorem c7_counterexample :
    TimerDataUpdater.calculate "restore" ⟨"timer-p", "a", 0, 10⟩ 20 0
      ≠ TimerDataUpdaterLegacy.calculate "restore" ⟨"timer-p", "a", 0, 10⟩ 20 0 := by
  decide

/-- C9: the transition function is total — it is a function in this
embedding, and in particular the default switch branch returns the prior
state unchanged for every action string outside the six recognized ones,
so no action can reach an exceptional path. -/
theorem c9_calculate_total (a : String) (s : TimerData) (now nowMs : Int)
    (h : a ≠ "init" ∧ a ≠ "continue" ∧ a ≠ "pause" ∧ a ≠ "update" ∧
         a ≠ "restore" ∧ a ≠ "forcepause") :
    TimerDataUpdater.calculate a s now nowMs = s :=
  calculate_eq_of_unrecognized a s now nowMs h.1 h.2.1 h.2.2.1 h.2.2.2.1
    h.2.2.2.2.1 h.2.2.2.2.2

/-- C9 witness: the unrecognized action string `delete` (handled outside
the engine) leaves the state unchanged. -/
theorem c9_calculate_total_witness :
    TimerDataUpdater.calculate "delete" ⟨"timer-r", "a", 1, 2⟩ 3 4
      = ⟨"timer-r", "a", 1, 2⟩ :=
  c9_calculate_total "delete" ⟨"timer-r", "a", 1, 2⟩ 3 4 (by decide)

/-- C10: `forcepause` only changes the status field to paused; the
timestamp, duration and id are untouched — unlike `pause` and `continue`,
which both set `ts` to `now`. -/
theorem c10_forcepause_frame (s : TimerData) (now nowMs : Int) :
    (TimerDataUpdater.calculate "forcepause" s now nowMs).«class» = "timer-p" ∧
    (TimerDataUpdater.calculate "forcepause" s now nowMs).ts = s.ts ∧
    (TimerDataUpdater.calculate "forcepause" s now nowMs).dur = s.dur ∧
    (TimerDataUpdater.calculate "forcepause" s now nowMs).timerId = s.timerId ∧
    (TimerDataUpdater.calculate "pause" s now nowMs).ts = now ∧
    (TimerDataUpdater.calculate "continue" s now nowMs).ts = now :=
  ⟨rfl, rfl, rfl, rfl, rfl, rfl⟩

/-! ## Analytics ledger (`AnalyticsStore`, src/main.js lines 80-103)

Timestamps are modelled as integer instants (milliseconds): the source
stores ISO-8601 strings and compares `new Date(e.timestamp).getTime()`
against millisecond cutoffs and range bounds, so the embedding works
directly with the compared instants.  `AnalyticsStore.anchorISO` maps an
anchor date to the midday instant of its day; the embedding passes that
resulting instant (`anchorMid`) explicitly.  The retention cutoff
`getCutoffTime()` is likewise passed explicitly where the source computes
it from the wall clock. -/

/-- One persisted ledger entry `{timestamp, duration, file, tags, type?}`. -/
structure AnalyticsEntry where
  timestamp : Int
  duration : Int
  file : String
  tags : List String
  type? : Option String
  deriving DecidableEq, Repr

/-- A user-typed `newTotal` as it reaches `setTagTotalForPeriod`:
`Number(newTotal)` is either NaN (non-numeric input) or a number, here an
integer value. -/
inductive JsNum where
  | nan : JsNum
  | int : Int → JsNum
  deriving DecidableEq, Repr

/-- JS `Number(newTotal) || 0`: NaN is falsy and becomes 0. -/
def jsNumOrZero : JsNum → Int
  | .nan => 0
  | .int v => v

namespace AnalyticsStore

/-- `AnalyticsStore.getCutoffTime()`: `Date.now() − retentionDays·24·60·60·1000`. -/
def getCutoffTime (nowMs retentionDays : Int) : Int :=
  nowMs - retentionDays * (24 * 60 * 60 * 1000)

/-- `AnalyticsStore.isInRange(tsISO, start, end)`. -/
def isInRange (t start «end» : Int) : Bool :=
  start ≤ t && t ≤ «end»

/-- `AnalyticsStore.readAll()`: the raw ledger filtered to entries at or
after the retention cutoff. -/
def readAll (ledger : List AnalyticsEntry) (cutoff : Int) : List AnalyticsEntry :=
  ledger.filter (fun e => cutoff ≤ e.timestamp)

/-- `AnalyticsStore.prune()`: filter the raw ledger by the cutoff and write
back only if the filtered list is shorter.  Returns the stored list after
the call together with whether a write-back happened. -/
def prune (ledger : List AnalyticsEntry) (cutoff : Int) :
    List AnalyticsEntry × Bool :=
  let pruned := ledger.filter (fun e => cutoff ≤ e.timestamp)
  if pruned.length ≠ ledger.length then (pruned, true) else (ledger, false)

/-- The signed reduce inside `sumTagInRange`:
`filter(tags includes ∧ in range).reduce((s, e) => s + (e.duration || 0), 0)`
over the retention-filtered entries. -/
def rawSumTagInRange (ledger : List AnalyticsEntry) (tag : String)
    (start «end» cutoff : Int) : Int :=
  ((readAll ledger cutoff).filter
      (fun e => e.tags.contains tag && isInRange e.timestamp start «end»)).foldl
    (fun s e => s + jsOrZero e.duration) 0

/-- `AnalyticsStore.sumTagInRange(tag, start, end)`: the signed sum floored
at 0 by the final `Math.max(0, sum)`. -/
def sumTagInRange (ledger : List AnalyticsEntry) (tag : String)
    (start «end» cutoff : Int) : Int :=
  max 0 (rawSumTagInRange ledger tag start «end» cutoff)

/-- `AnalyticsStore.setTagTotalForPeriod(tag, newTotal, {start, end}, anchorDate)`:
`safeNew = Math.max(0, Math.floor(Number(newTotal) || 0))` (on an integer
value the floor is the identity), `delta = safeNew − sumTagInRange(...)`;
no-op when `delta` is 0, otherwise append one adjustment entry timestamped
at the midday anchor instant.  Returns the ledger after the call. -/
def setTagTotalForPeriod (ledger : List AnalyticsEntry) (tag : String)
    (newTotal : JsNum) (start «end» anchorMid cutoff : Int) :
    List AnalyticsEntry :=
  let safeNew := max 0 (jsNumOrZero newTotal)
  let current := sumTagInRange ledger tag start «end» cutoff
  let delta := safeNew - current
  if delta = 0 then ledger
  else
    ledger ++ [{ timestamp := anchorMid, duration := delta, file := "manual-edit",
                 tags := [tag], type? := some "adjust" }]

end AnalyticsStore

/-- Folding `+ duration` over a list equals the sum of the mapped list. -/
theorem foldl_add_durations (f : AnalyticsEntry → Int) (l : List AnalyticsEntry)
    (a : Int) : l.foldl (fun s e => s + f e) a = a + (l.map f).sum := by
  induction l generalizing a with
  | nil => simp
  | cons x xs ih => simp [ih, add_assoc]

/-- Appending one entry that passes the retention, tag and range filters
adds exactly its `duration || 0` to the signed in-range sum. -/
theorem rawSumTagInRange_append_one (l : List AnalyticsEntry) (e : AnalyticsEntry)
    (tag : String) (start «end» cutoff : Int)
    (hc : cutoff ≤ e.timestamp) (ht : e.tags.contains tag = true)
    (hr : AnalyticsStore.isInRange e.timestamp start «end» = true) :
    AnalyticsStore.rawSumTagInRange (l ++ [e]) tag start «end» cutoff
      = AnalyticsStore.rawSumTagInRange l tag start «end» cutoff
          + jsOrZero e.duration := by
  unfold AnalyticsStore.rawSumTagInRange AnalyticsStore.readAll
  rw [List.filter_append, List.filter_append]
  rw [foldl_add_durations, foldl_add_durations]
  have ht2 : tag ∈ e.tags := by simpa using ht
  simp [hc, ht2, hr]

/-- C2 (amended): a negative or non-numeric `newTotal` is not rejected by
`setTagTotalForPeriod`; it is silently clamped to 0 by
`Math.max(0, Math.floor(Number(newTotal) || 0))`, so the call behaves
exactly like setting the period total to 0: it appends a compensating
negative adjustment whenever the current sum is positive, and leaves the
ledger unchanged only when the current sum is already 0.  Input validation
lives in the edit-modal UI, not in the store. -/
theorem c2_invalid_adjustment_clamped (ledger : List AnalyticsEntry) (tag : String)
    (start «end» anchorMid cutoff : Int) (nt : JsNum)
    (hbad : nt = JsNum.nan ∨ ∃ v : Int, nt = JsNum.int v ∧ v < 0) :
    AnalyticsStore.setTagTotalForPeriod ledger tag nt start «end» anchorMid cutoff
      = AnalyticsStore.setTagTotalForPeriod ledger tag (JsNum.int 0) start «end»
          anchorMid cutoff ∧
    (0 < AnalyticsStore.sumTagInRange ledger tag start «end» cutoff →
      AnalyticsStore.setTagTotalForPeriod ledger tag nt start «end» anchorMid cutoff
        = ledger ++
            [{ timestamp := anchorMid
               duration := -(AnalyticsStore.sumTagInRange ledger tag start «end» cutoff)
               file := "manual-edit", tags := [tag], type? := some "adjust" }]) := by
  have hz : max 0 (jsNumOrZero nt) = 0 := by
    rcases hbad with h | ⟨v, rfl, hv⟩
    · subst h; rfl
    · simp [jsNumOrZero]; omega
  constructor
  · unfold AnalyticsStore.setTagTotalForPeriod
    rw [hz]
    rfl
  · intro hpos
    unfold AnalyticsStore.setTagTotalForPeriod
    rw [hz]
    rw [if_neg (by omega)]
    simp [zero_sub]

/-- C2 witness: a ledger holding 10s for `#a`; the call with `newTotal = −5`
appends the compensating `−10` adjustment instead of rejecting. -/
theorem c2_invalid_adjustment_clamped_witness :
    AnalyticsStore.setTagTotalForPeriod
        [{ timestamp := 5, duration := 10, file := "f", tags := ["#a"], type? := none }]
        "#a" (JsNum.int (-5)) 0 10 5 0
      = [{ timestamp := 5, duration := 10, file := "f", tags := ["#a"], type? := none }] ++
          [{ timestamp := 5
             duration := -(AnalyticsStore.sumTagInRange
               [{ timestamp := 5, duration := 10, file := "f", tags := ["#a"],
                  type? := none }] "#a" 0 10 0)
             file := "manual-edit", tags := ["#a"], type? := some "adjust" }] :=
  (c2_invalid_adjustment_clamped
      [{ timestamp := 5, duration := 10, file := "f", tags := ["#a"], type? := none }]
      "#a" 0 10 5 0 (JsNum.int (-5))
      (Or.inr ⟨-5, rfl, by decide⟩)).2 (by decide)

/-- C2 counterexample: at that concrete input the ledger is mutated, so
the claim that the call is rejected before any ledger mutation is false. -/
theorem c2_counterexample :
    AnalyticsStore.setTagTotalForPeriod
        [{ timestamp := 5, duration := 10, file := "f", tags := ["#a"], type? := none }]
        "#a" (JsNum.int (-5)) 0 10 5 0
      ≠ [{ timestamp := 5, duration := 10, file := "f", tags := ["#a"], type? := none }] := by
  decide

/-- C5 (amended): for a non-negative target `T`, an anchor whose midday
instant lies inside the period and inside the retention window, and a
period whose pre-existing signed (unfloored) sum is non-negative — so that
the `Math.max(0, ·)` clamp inside `sumTagInRange` is inactive —
`setTagTotalForPeriod` appends exactly one adjustment entry carrying
`delta = T − current` when that delta is non-zero and appends nothing when
it is zero, and afterwards `sumTagInRange` over the same range and
retention window returns exactly `T`.  When the pre-existing raw sum is
negative the delta is computed against the clamped value 0 and the
resulting total stays clamped below `T` (see the counterexample). -/
theorem c5_set_total_correct (ledger : List AnalyticsEntry) (tag : String)
    (T start «end» anchorMid cutoff : Int)
    (hT : 0 ≤ T)
    (hraw : 0 ≤ AnalyticsStore.rawSumTagInRange ledger tag start «end» cutoff)
    (h1 : start ≤ anchorMid) (h2 : anchorMid ≤ «end») (h3 : cutoff ≤ anchorMid) :
    AnalyticsStore.sumTagInRange
        (AnalyticsStore.setTagTotalForPeriod ledger tag (JsNum.int T) start «end»
          anchorMid cutoff) tag start «end» cutoff = T ∧
    (T ≠ AnalyticsStore.sumTagInRange ledger tag start «end» cutoff →
      AnalyticsStore.setTagTotalForPeriod ledger tag (JsNum.int T) start «end»
          anchorMid cutoff
        = ledger ++
            [{ timestamp := anchorMid
               duration := T - AnalyticsStore.sumTagInRange ledger tag start «end» cutoff
               file := "manual-edit", tags := [tag], type? := some "adjust" }]) ∧
    (T = AnalyticsStore.sumTagInRange ledger tag start «end» cutoff →
      AnalyticsStore.setTagTotalForPeriod ledger tag (JsNum.int T) start «end»
          anchorMid cutoff = ledger) := by
  have hcur : AnalyticsStore.sumTagInRange ledger tag start «end» cutoff
      = AnalyticsStore.rawSumTagInRange ledger tag start «end» cutoff := by
    unfold AnalyticsStore.sumTagInRange
    omega
  have hsafe : max 0 (jsNumOrZero (JsNum.int T)) = T := by
    simp [jsNumOrZero]; omega
  by_cases hδ : T = AnalyticsStore.sumTagInRange ledger tag start «end» cutoff
  · have hres : AnalyticsStore.setTagTotalForPeriod ledger tag (JsNum.int T) start «end»
        anchorMid cutoff = ledger := by
      unfold AnalyticsStore.setTagTotalForPeriod
      rw [hsafe, if_pos (by omega)]
    refine ⟨?_, fun hne => absurd hδ hne, fun _ => hres⟩
    rw [hres, hcur] at *
    omega
  · have hres : AnalyticsStore.setTagTotalForPeriod ledger tag (JsNum.int T) start «end»
        anchorMid cutoff
        = ledger ++
            [{ timestamp := anchorMid
               duration := T - AnalyticsStore.sumTagInRange ledger tag start «end» cutoff
               file := "manual-edit", tags := [tag], type? := some "adjust" }] := by
      unfold AnalyticsStore.setTagTotalForPeriod
      rw [hsafe, if_neg (by omega)]
    refine ⟨?_, fun _ => hres, fun heq => absurd heq hδ⟩
    rw [hres]
    unfold AnalyticsStore.sumTagInRange
    unfold AnalyticsStore.sumTagInRange at hδ
    rw [rawSumTagInRange_append_one _ _ _ _ _ _ h3 (by simp)
        (by unfold AnalyticsStore.isInRange; simp [h1, h2])]
    simp only [jsOrZero]
    split <;> omega

/-- C5 witness: a ledger with one 10s entry for `#a`; setting the daily
total to 3 appends one `−7` adjustment and the range sum becomes 3. -/
theorem c5_set_total_correct_witness :
    AnalyticsStore.sumTagInRange
        (AnalyticsStore.setTagTotalForPeriod
          [{ timestamp := 5, duration := 10, file := "f", tags := ["#a"], type? := none }]
          "#a" (JsNum.int 3) 0 10 5 0) "#a" 0 10 0 = 3 :=
  (c5_set_total_correct
      [{ timestamp := 5, duration := 10, file := "f", tags := ["#a"], type? := none }]
      "#a" 3 0 10 5 0 (by decide) (by decide) (by decide) (by decide) (by decide)).1

/-- C5 counterexample: when the period already holds a negative raw sum
(one `−10` adjustment entry), setting the total to 3 leaves the reported
sum at 0, not 3: the delta is computed against the clamped current value. -/
theorem c5_counterexample :
    AnalyticsStore.sumTagInRange
        (AnalyticsStore.setTagTotalForPeriod
          [{ timestamp := 5, duration := -10, file := "manual-edit", tags := ["#a"],
             type? := some "adjust" }]
          "#a" (JsNum.int 3) 0 10 5 0) "#a" 0 10 0 ≠ 3 := by
  decide

/-- C8: `prune()` keeps exactly the entries with
`timestamp ≥ now − retentionDays·86400000` — equivalently it removes
exactly those with `timestamp < cutoff` — the survivors are the original
entries unchanged and in their original relative order (a sublist), and
the write-back happens exactly when at least one entry was removed. -/
theorem c8_prune_exact (ledger : List AnalyticsEntry) (nowMs rd : Int) :
    (AnalyticsStore.prune ledger (AnalyticsStore.getCutoffTime nowMs rd)).1
      = ledger.filter
          (fun e => !decide (e.timestamp < AnalyticsStore.getCutoffTime nowMs rd)) ∧
    ((AnalyticsStore.prune ledger (AnalyticsStore.getCutoffTime nowMs rd)).1).Sublist
        ledger ∧
    ((AnalyticsStore.prune ledger (AnalyticsStore.getCutoffTime nowMs rd)).2 = true ↔
      ∃ e ∈ ledger, e.timestamp < AnalyticsStore.getCutoffTime nowMs rd) := by
  set c := AnalyticsStore.getCutoffTime nowMs rd with hc
  have hfe : ledger.filter (fun e => decide (c ≤ e.timestamp))
      = ledger.filter (fun e => !decide (e.timestamp < c)) := by
    apply List.filter_congr
    intro e _
    by_cases h : c ≤ e.timestamp <;> simp [h] <;> omega
  have hsub : (ledger.filter (fun e => decide (c ≤ e.timestamp))).Sublist ledger :=
    List.filter_sublist ledger
  have hlen : (ledger.filter (fun e => decide (c ≤ e.timestamp))).length ≠ ledger.length
      ↔ ∃ e ∈ ledger, e.timestamp < c := by
    constructor
    · intro hne
      by_contra hno
      push_neg at hno
      apply hne
      have : ledger.filter (fun e => decide (c ≤ e.timestamp)) = ledger := by
        rw [List.filter_eq_self]
        intro e he
        have := hno e he
        simp
        omega
      rw [this]
    · rintro ⟨e, he, hlt⟩ hlen
      have heq := hsub.eq_of_length hlen
      rw [← heq] at he
      have := List.of_mem_filter he
      simp at this
      omega
  unfold AnalyticsStore.prune
  by_cases hne : (ledger.filter (fun e => decide (c ≤ e.timestamp))).length ≠ ledger.length
  · rw [if_pos hne]
    exact ⟨hfe, hsub, by simp [hlen.mp hne]⟩
  · rw [if_neg hne]
    push_neg at hne
    have heq := hsub.eq_of_length hne
    refine ⟨by rw [← hfe, heq], List.Sublist.refl ledger, ?_⟩
    simp only [Bool.false_eq_true, false_iff]
    exact fun hex => (hlen.mpr hex) hne

/-! ## Marker codec (`TimerRenderer` / `TimerParser`, current revision)

`TimerRenderer.render` produces
`<span class="CLS" id="ID" data-dur="DUR" data-ts="TS">【ICON HH:MM:SS 】</span>`
and `TimerParser.parse` scans a line with the regex `NEW_FORMAT`
`<span class="(timer-r|timer-p)" id="([^"]+)" data-dur="(\d+)" data-ts="(\d+)">.*?<\/span>`
returning the first match (or the first match with the requested id).  The
embedding implements the regex as a deterministic character scan; the
determinisation is exact: each quantified group (`[^"]+`, `\d+`) is
followed by a literal that its character class cannot match, so greedy
matching without backtracking coincides with the regex semantics, and the
lazy `.*?<\/span>` is the earliest `</span>` with no newline before it
(JS `.` does not match newlines). -/

/-- Decimal digit characters of `n` (the JS `String(n)` rendering of a
non-negative integer), computed with a structural fuel so that the kernel
can evaluate it; `natDigitsAux fuel n` is correct whenever `n < fuel`. -/
def natDigitsAux : Nat → Nat → List Char
  | 0, _ => []
  | fuel + 1, n =>
    if n < 10 then [Nat.digitChar n]
    else natDigitsAux fuel (n / 10) ++ [Nat.digitChar (n % 10)]

/-- Decimal digit characters of a natural number. -/
def natDigits (n : Nat) : List Char := natDigitsAux (n + 1) n

/-- Numeric value of a run of decimal digit characters (the action of
`parseInt(s, 10)` on a digit string). -/
def digitsVal (cs : List Char) : Nat :=
  cs.foldl (fun a c => a * 10 + (c.toNat - 48)) 0

/-- JS `String(n)` for an integer: decimal digits with a leading minus
sign when negative. -/
def intRepr (n : Int) : List Char :=
  if n < 0 then '-' :: natDigits (-n).toNat else natDigits n.toNat

/-- JS `s.padStart(2, '0')`. -/
def padTwo (cs : List Char) : List Char :=
  if cs.length ≥ 2 then cs else List.replicate (2 - cs.length) '0' ++ cs

/-- `TimerUtils.formatTimeDisplay(totalSeconds)`: `HH:MM:SS` with each
component zero-padded to two characters; `Math.floor(x / y)` is `Int.fdiv`
and the JS remainder `%` is `Int.tmod`. -/
def formatTimeDisplay (totalSeconds : Int) : List Char :=
  padTwo (intRepr (Int.fdiv totalSeconds 3600)) ++
    ':' :: padTwo (intRepr (Int.fdiv (Int.tmod totalSeconds 3600) 60)) ++
    ':' :: padTwo (intRepr (Int.tmod totalSeconds 60))

/-- If `pat` is a leading literal of `s`, return the remainder of `s`. -/
def dropLit : List Char → List Char → Option (List Char)
  | [], s => some s
  | _ :: _, [] => none
  | p :: pt, c :: ct => if p = c then dropLit pt ct else none

/-- Index of the first occurrence of the literal `pat` in `s`. -/
def findLit (pat : List Char) : List Char → Option Nat
  | [] => if (dropLit pat []).isSome then some 0 else none
  | c :: tl =>
    if (dropLit pat (c :: tl)).isSome then some 0
    else (findLit pat tl).map (· + 1)

theorem dropLit_append (pat r : List Char) : dropLit pat (pat ++ r) = some r := by
  induction pat with
  | nil => rfl
  | cons c ct ih => simp [dropLit, ih]

theorem dropLit_eq_some (pat s r : List Char) (h : dropLit pat s = some r) :
    s = pat ++ r := by
  induction pat generalizing s with
  | nil => cases h; rfl
  | cons c ct ih =>
    match s with
    | [] => cases h
    | x :: xs =>
      unfold dropLit at h
      split at h
      · next hcx => rw [← hcx, List.cons_append]; rw [ih xs h]
      · cases h

theorem digitChar_toNat (n : Nat) (h : n < 10) : (Nat.digitChar n).toNat - 48 = n := by
  interval_cases n <;> rfl

theorem digitChar_isDigit (n : Nat) (h : n < 10) : (Nat.digitChar n).isDigit = true := by
  interval_cases n <;> rfl

theorem digitsVal_append_one (l : List Char) (c : Char) :
    digitsVal (l ++ [c]) = digitsVal l * 10 + (c.toNat - 48) := by
  unfold digitsVal
  rw [List.foldl_append]
  rfl

theorem digitsVal_natDigitsAux (fuel n : Nat) (h : n < fuel) :
    digitsVal (natDigitsAux fuel n) = n := by
  induction fuel generalizing n with
  | zero => omega
  | succ f ih =>
    unfold natDigitsAux
    by_cases h10 : n < 10
    · rw [if_pos h10]
      unfold digitsVal
      simp [digitChar_toNat n h10]
    · rw [if_neg h10]
      rw [digitsVal_append_one, ih (n / 10) (by omega),
        digitChar_toNat (n % 10) (by omega)]
      omega

theorem digitsVal_natDigits (n : Nat) : digitsVal (natDigits n) = n :=
  digitsVal_natDigitsAux (n + 1) n (Nat.lt_succ_self n)

theorem natDigitsAux_digits (fuel n : Nat) :
    ∀ c ∈ natDigitsAux fuel n, c.isDigit = true := by
  induction fuel generalizing n with
  | zero => intro c hc; cases hc
  | succ f ih =>
    intro c hc
    unfold natDigitsAux at hc
    split at hc
    · next h10 =>
      simp at hc
      subst hc
      exact digitChar_isDigit n h10
    · next h10 =>
      rcases List.mem_append.mp hc with h | h
      · exact ih (n / 10) c h
      · simp at h
        subst h
        exact digitChar_isDigit (n % 10) (by omega)

theorem natDigits_digits (n : Nat) : ∀ c ∈ natDigits n, c.isDigit = true :=
  natDigitsAux_digits (n + 1) n

theorem natDigits_ne_nil (n : Nat) : natDigits n ≠ [] := by
  unfold natDigits natDigitsAux
  split
  · simp
  · simp

theorem isDigit_ne_quote (c : Char) (h : c.isDigit = true) : c ≠ '"' := by
  rintro rfl; exact absurd h (by decide)

theorem isDigit_ne_lt (c : Char) (h : c.isDigit = true) : c ≠ '<' := by
  rintro rfl; exact absurd h (by decide)

theorem isDigit_ne_nl (c : Char) (h : c.isDigit = true) : c ≠ '\n' := by
  rintro rfl; exact absurd h (by decide)

theorem isAlphanum_ne_quote (c : Char) (h : c.isAlphanum = true) : c ≠ '"' := by
  rintro rfl; exact absurd h (by decide)

theorem takeWhile_append_stop (p : Char → Bool) (l : List Char) (c : Char)
    (r : List Char) (hl : ∀ x ∈ l, p x = true) (hc : p c = false) :
    (l ++ c :: r).takeWhile p = l := by
  induction l with
  | nil => simp [List.takeWhile_cons, hc]
  | cons x xs ih =>
    have hx : p x = true := hl x (by simp)
    have ih2 := ih (fun y hy => hl y (by simp [hy]))
    simp [List.takeWhile_cons, hx, ih2]

theorem intRepr_of_nonneg (n : Int) (h : 0 ≤ n) : intRepr n = natDigits n.toNat := by
  unfold intRepr
  rw [if_neg (by omega)]

theorem intRepr_chars (n : Int) : ∀ c ∈ intRepr n, c ≠ '<' ∧ c ≠ '\n' := by
  unfold intRepr
  intro c hc
  split at hc
  · rcases List.mem_cons.mp hc with h | h
    · subst h; exact ⟨by decide, by decide⟩
    · have := natDigits_digits _ c h
      exact ⟨isDigit_ne_lt c this, isDigit_ne_nl c this⟩
  · have := natDigits_digits _ c hc
    exact ⟨isDigit_ne_lt c this, isDigit_ne_nl c this⟩

theorem padTwo_chars (l : List Char) (hl : ∀ c ∈ l, c ≠ '<' ∧ c ≠ '\n') :
    ∀ c ∈ padTwo l, c ≠ '<' ∧ c ≠ '\n' := by
  unfold padTwo
  intro c hc
  split at hc
  · exact hl c hc
  · rcases List.mem_append.mp hc with h | h
    · have := List.eq_of_mem_replicate h
      subst this
      exact ⟨by decide, by decide⟩
    · exact hl c h

theorem formatTimeDisplay_chars (t : Int) :
    ∀ c ∈ formatTimeDisplay t, c ≠ '<' ∧ c ≠ '\n' := by
  unfold formatTimeDisplay
  simp only [List.forall_mem_append, List.forall_mem_cons]
  refine ⟨⟨padTwo_chars _ (intRepr_chars _), by decide,
    padTwo_chars _ (intRepr_chars _)⟩, by decide, padTwo_chars _ (intRepr_chars _)⟩

/-- The result of a successful scan: the decoded fields plus the text
offsets of the matched span, as returned by `TimerParser.parse`. -/
structure ParsedTimer where
  «class» : String
  timerId : String
  dur : Int
  ts : Int
  beforeIndex : Nat
  afterIndex : Nat
  deriving DecidableEq, Repr

/-- Literal fragments of the `NEW_FORMAT` regex and the render template. -/
def litSpanOpen : List Char := "<span class=\"".data

def litTimerR : List Char := "timer-r".data

def litTimerP : List Char := "timer-p".data

def litId : List Char := "\" id=\"".data

def litDur : List Char := "\" data-dur=\"".data

def litTs : List Char := "\" data-ts=\"".data

def litGt : List Char := "\">".data

def litClose : List Char := "</span>".data

/-- The status alternation `(timer-r|timer-p)`: try `timer-r`, then
`timer-p`. -/
def matchStatus (r : List Char) : Option (String × List Char) :=
  match dropLit litTimerR r with
  | some rest => some ("timer-r", rest)
  | none =>
    match dropLit litTimerP r with
    | some rest => some ("timer-p", rest)
    | none => none

/-- A non-empty quantified capture (`[^"]+` or `\d+`): the maximal run of
characters satisfying `p` and the remainder; fails on an empty run.  Since
each such group in `NEW_FORMAT` is followed by a literal its class cannot
match, maximal-munch coincides with the backtracking regex. -/
def takeField (p : Char → Bool) (r : List Char) : Option (List Char × List Char) :=
  let f := r.takeWhile p
  if f.isEmpty then none else some (f, r.drop f.length)

/-- Try to match the whole `NEW_FORMAT` pattern at the head of `s`,
returning `(class, id, dur, ts, remainder after the match)`. -/
def matchAt (s : List Char) : Option (String × String × Nat × Nat × List Char) :=
  (dropLit litSpanOpen s).bind fun r1 =>
  (matchStatus r1).bind fun cr =>
  (dropLit litId cr.2).bind fun r3 =>
  (takeField (fun c => c != '"') r3).bind fun idp =>
  (dropLit litDur idp.2).bind fun r5 =>
  (takeField Char.isDigit r5).bind fun durp =>
  (dropLit litTs durp.2).bind fun r7 =>
  (takeField Char.isDigit r7).bind fun tsp =>
  (dropLit litGt tsp.2).bind fun r9 =>
  (findLit litClose r9).bind fun j =>
  if (r9.take j).contains '\n' then none
  else some (cr.1, ⟨idp.1⟩, digitsVal durp.1, digitsVal tsp.1,
    r9.drop (j + litClose.length))

/-- The condition `!targetTimerId || targetTimerId === id` of the exec
loop. -/
def targetMatches : Option String → String → Bool
  | none, _ => true
  | some tg, tid => tg == tid

/-- The `regex.exec` loop of `TimerParser.parse`: find the leftmost match;
if a target id is requested and the match carries a different id, resume
the search after the match (the `lastIndex` of the global regex),
otherwise return it.  The fuel argument only bounds the scan — every step
either consumes at least one character or returns — and is instantiated
with more than the line length, which the loop can never exhaust. -/
def parseScanAux : Nat → List Char → Option String → Nat → Option ParsedTimer
  | 0, _, _, _ => none
  | fuel + 1, s, target, idx =>
    match matchAt s with
    | some (cls, tid, d, t, rest) =>
      if targetMatches target tid then
        some ⟨cls, tid, (d : Int), (t : Int), idx, idx + (s.length - rest.length)⟩
      else parseScanAux fuel rest target (idx + (s.length - rest.length))
    | none =>
      match s with
      | [] => none
      | _ :: tl => parseScanAux fuel tl target (idx + 1)

namespace TimerParser

/-- `TimerParser.parse(lineText, targetTimerId)` of the current revision
(src/main.js lines 229-239). -/
def parse (lineText : String) (targetTimerId : Option String) : Option ParsedTimer :=
  parseScanAux (lineText.data.length + 1) lineText.data targetTimerId 0

end TimerParser

/-- The decorative icon: alternating hourglass while running, static while
paused. -/
def iconChar (d : TimerData) : Char :=
  if d.«class» = "timer-r" then (if Int.tmod d.dur 2 = 0 then '⌛' else '⏳')
  else '⏳'

namespace TimerRenderer

/-- `TimerRenderer.render(d)` (src/main.js lines 221-227):
`<span class="${class}" id="${timerId}" data-dur="${dur}" data-ts="${ts}">【${icon}${formatted} 】</span>`. -/
def render (d : TimerData) : String :=
  ⟨"<span class=\"".data ++ (d.«class».data ++ ("\" id=\"".data ++ (d.timerId.data ++
    ("\" data-dur=\"".data ++ (intRepr d.dur ++ ("\" data-ts=\"".data ++ (intRepr d.ts ++
    ("\">".data ++ (('【' :: iconChar d ::
      (formatTimeDisplay d.dur ++ [' ', '】'])) ++ "</span>".data)))))))))⟩

end TimerRenderer

theorem matchStatus_r (X : List Char) :
    matchStatus (['t', 'i', 'm', 'e', 'r', '-', 'r'] ++ X) = some ("timer-r", X) := by
  unfold matchStatus
  rw [show (['t', 'i', 'm', 'e', 'r', '-', 'r'] : List Char) = litTimerR from rfl,
    dropLit_append]

theorem matchStatus_p (X : List Char) :
    matchStatus (['t', 'i', 'm', 'e', 'r', '-', 'p'] ++ X) = some ("timer-p", X) := by
  unfold matchStatus
  rw [show dropLit litTimerR (['t', 'i', 'm', 'e', 'r', '-', 'p'] ++ X) = none from rfl]
  rw [show (['t', 'i', 'm', 'e', 'r', '-', 'p'] : List Char) = litTimerP from rfl,
    dropLit_append]

theorem takeField_block (p : Char → Bool) (l : List Char) (c : Char) (r : List Char)
    (hl : ∀ x ∈ l, p x = true) (hc : p c = false) (hne : l ≠ []) :
    takeField p (l ++ c :: r) = some (l, c :: r) := by
  unfold takeField
  rw [takeWhile_append_stop p l c r hl hc]
  rw [if_neg (by simp [hne])]
  rw [List.drop_left]

theorem takeField_before_dur (idc : List Char) (hne : idc ≠ [])
    (hq : ∀ c ∈ idc, c ≠ '"') (X : List Char) :
    takeField (fun c => c != '"') (idc ++ (litDur ++ X)) = some (idc, litDur ++ X) :=
  takeField_block (fun c => c != '"') idc '"' (" data-dur=\"".data ++ X)
    (fun x hx => by simp [hq x hx]) (by decide) hne

theorem takeField_before_ts (ds : List Char) (hne : ds ≠ [])
    (hd : ∀ c ∈ ds, c.isDigit = true) (X : List Char) :
    takeField Char.isDigit (ds ++ (litTs ++ X)) = some (ds, litTs ++ X) :=
  takeField_block Char.isDigit ds '"' (" data-ts=\"".data ++ X) hd (by decide) hne

theorem takeField_before_gt (ds : List Char) (hne : ds ≠ [])
    (hd : ∀ c ∈ ds, c.isDigit = true) (X : List Char) :
    takeField Char.isDigit (ds ++ (litGt ++ X)) = some (ds, litGt ++ X) :=
  takeField_block Char.isDigit ds '"' (">".data ++ X) hd (by decide) hne

theorem contains_eq_false_of_forall (l : List Char) (ch : Char)
    (h : ∀ c ∈ l, c ≠ ch) : l.contains ch = false := by
  cases hcc : l.contains ch
  · rfl
  · have hmem : ch ∈ l := by simpa using hcc
    exact absurd rfl (h ch hmem)

theorem findLit_deco (deco : List Char) (h : ∀ c ∈ deco, c ≠ '<') :
    findLit litClose (deco ++ litClose) = some deco.length := by
  induction deco with
  | nil =>
    simp only [List.nil_append, List.length_nil]
    show findLit litClose ('<' :: "/span>".data) = some 0
    have hd : dropLit litClose ('<' :: "/span>".data) = some [] := by
      have := dropLit_append litClose []
      simpa using this
    simp [findLit, hd]
  | cons c tl ih =>
    simp only [List.cons_append, List.length_cons]
    have hd : dropLit litClose (c :: (tl ++ litClose)) = none := by
      show (if '<' = c then dropLit "/span>".data (tl ++ litClose) else none) = none
      rw [if_neg (fun heq => (h c (by simp)) heq.symm)]
    rw [show findLit litClose (c :: (tl ++ litClose))
        = if (dropLit litClose (c :: (tl ++ litClose))).isSome then some 0
          else (findLit litClose (tl ++ litClose)).map (· + 1) from rfl]
    rw [hd]
    simp [ih (fun x hx => h x (by simp [hx]))]

/-- The core of the round-trip: the rendered shape matches at its head and
the captured groups are exactly the rendered components. -/
theorem matchAt_render (cls id : String) (durN tsN : Nat) (deco : List Char)
    (hcls : cls = "timer-r" ∨ cls = "timer-p")
    (hidne : id.data ≠ [])
    (hid : ∀ c ∈ id.data, c ≠ '"')
    (hdeco : ∀ c ∈ deco, c ≠ '<' ∧ c ≠ '\n') :
    matchAt (litSpanOpen ++ (cls.data ++ (litId ++ (id.data ++ (litDur ++
        (natDigits durN ++ (litTs ++ (natDigits tsN ++ (litGt ++
        (deco ++ litClose))))))))))
      = some (cls, id, durN, tsN, []) := by
  have hA := takeField_before_dur id.data hidne hid
  have hB := takeField_before_ts (natDigits durN) (natDigits_ne_nil durN)
    (natDigits_digits durN)
  have hC := takeField_before_gt (natDigits tsN) (natDigits_ne_nil tsN)
    (natDigits_digits tsN)
  have hF := findLit_deco deco (fun c hc => (hdeco c hc).1)
  have hN := contains_eq_false_of_forall deco '\n' (fun c hc => (hdeco c hc).2)
  have hdropAll : (deco ++ litClose).drop (deco.length + litClose.length) = [] :=
    List.drop_eq_nil_of_le (by simp)
  rcases hcls with rfl | rfl <;>
    simp only [matchAt, dropLit_append, Option.some_bind, matchStatus_r, matchStatus_p,
      hA, hB, hC, hF, List.take_left, hN, Bool.false_eq_true, if_false,
      digitsVal_natDigits, hdropAll]

theorem parseScanAux_succ (fuel : Nat) (s : List Char) (target : Option String)
    (idx : Nat) :
    parseScanAux (fuel + 1) s target idx
      = match matchAt s with
        | some (cls, tid, dd, t, rest) =>
          if targetMatches target tid then
            some ⟨cls, tid, (dd : Int), (t : Int), idx, idx + (s.length - rest.length)⟩
          else parseScanAux fuel rest target (idx + (s.length - rest.length))
        | none =>
          match s with
          | [] => none
          | _ :: tl => parseScanAux fuel tl target (idx + 1) := rfl

theorem parseScanAux_first (fuel : Nat) (s : List Char) (idx : Nat)
    (cls tid : String) (dd t : Nat) (rest : List Char)
    (hm : matchAt s = some (cls, tid, dd, t, rest)) :
    parseScanAux (fuel + 1) s none idx
      = some ⟨cls, tid, (dd : Int), (t : Int), idx, idx + (s.length - rest.length)⟩ := by
  rw [parseScanAux_succ, hm]
  rfl

/-- C3 (amended): for every valid timer state — class one of the two
status tokens, a non-empty base-62 (alphanumeric) id, non-negative integer
`dur` and NON-NEGATIVE integer `ts` — parsing the rendered marker succeeds
and returns the same class, id, dur and ts (the decorative inner label is
excluded).  The restriction to `ts ≥ 0` is forced by the `NEW_FORMAT`
pattern, whose `data-ts` group is `(\d+)` and cannot match the minus sign
that `render` emits for a negative timestamp. -/
theorem c3_parse_render_roundtrip (d : TimerData)
    (hcls : d.«class» = "timer-r" ∨ d.«class» = "timer-p")
    (hidne : d.timerId ≠ "")
    (hid : ∀ c ∈ d.timerId.data, c.isAlphanum = true)
    (hdur : 0 ≤ d.dur) (hts : 0 ≤ d.ts) :
    ∃ b e, TimerParser.parse (TimerRenderer.render d) none
      = some ⟨d.«class», d.timerId, d.dur, d.ts, b, e⟩ := by
  have hdeco : ∀ c ∈ ('【' :: iconChar d :: (formatTimeDisplay d.dur ++ [' ', '】'])),
      c ≠ '<' ∧ c ≠ '\n' := by
    intro c hc
    rcases List.mem_cons.mp hc with h | h
    · subst h; exact ⟨by decide, by decide⟩
    rcases List.mem_cons.mp h with h | h
    · subst h
      unfold iconChar
      split
      · split
        · exact ⟨by decide, by decide⟩
        · exact ⟨by decide, by decide⟩
      · exact ⟨by decide, by decide⟩
    rcases List.mem_append.mp h with h | h
    · exact formatTimeDisplay_chars _ c h
    · simp only [List.mem_cons, List.not_mem_nil, or_false] at h
      rcases h with rfl | rfl
      · exact ⟨by decide, by decide⟩
      · exact ⟨by decide, by decide⟩
  have hidne' : d.timerId.data ≠ [] := by
    intro hnil
    exact hidne (String.ext (hnil.trans rfl))
  have hid' : ∀ c ∈ d.timerId.data, c ≠ '"' :=
    fun c hc => isAlphanum_ne_quote c (hid c hc)
  have hmatch := matchAt_render d.«class» d.timerId d.dur.toNat d.ts.toNat
    ('【' :: iconChar d :: (formatTimeDisplay d.dur ++ [' ', '】']))
    hcls hidne' hid' hdeco
  have hrender : (TimerRenderer.render d).data
      = litSpanOpen ++ (d.«class».data ++ (litId ++ (d.timerId.data ++ (litDur ++
        (natDigits d.dur.toNat ++ (litTs ++ (natDigits d.ts.toNat ++ (litGt ++
        (('【' :: iconChar d :: (formatTimeDisplay d.dur ++ [' ', '】'])) ++
          litClose))))))))) := by
    show litSpanOpen ++ (d.«class».data ++ (litId ++ (d.timerId.data ++ (litDur ++
        (intRepr d.dur ++ (litTs ++ (intRepr d.ts ++ (litGt ++
        (('【' :: iconChar d :: (formatTimeDisplay d.dur ++ [' ', '】'])) ++
          litClose))))))))) = _
    rw [intRepr_of_nonneg _ hdur, intRepr_of_nonneg _ hts]
  rw [← hrender] at hmatch
  refine ⟨0, 0 + ((TimerRenderer.render d).data.length - ([] : List Char).length), ?_⟩
  unfold TimerParser.parse
  rw [parseScanAux_first _ _ _ _ _ _ _ _ hmatch]
  rw [Int.toNat_of_nonneg hdur, Int.toNat_of_nonneg hts]

/-- C3 witness: the concrete valid state `timer-r, id t0, dur 42, ts 1000`
round-trips through render and parse. -/
theorem c3_parse_render_roundtrip_witness :
    ∃ b e, TimerParser.parse (TimerRenderer.render ⟨"timer-r", "t0", 42, 1000⟩) none
      = some ⟨"timer-r", "t0", 42, 1000, b, e⟩ :=
  c3_parse_render_roundtrip ⟨"timer-r", "t0", 42, 1000⟩ (Or.inl rfl) (by decide)
    (by decide) (by decide) (by decide)

/-- C3 counterexample: the state with integer timestamp `ts = −1` is valid
per the claim (which only asks for an integer ts), renders to
`data-ts="-1"`, and the parser finds no match at all: the round-trip fails
for it, so the claim quantified over every integer ts is false. -/
theorem c3_counterexample :
    TimerParser.parse (TimerRenderer.render ⟨"timer-r", "t0", 0, -1⟩) none = none := by
  decide

/-! ## Legacy marker decoder chain (legacy revision, src/main.js lines 1057-1110)

The legacy `TimerParser.parse(lineText, version, targetTimerId)` builds a
DOM template from the line and queries it: for versions `v1`/`auto` it
looks for an old-format `.timer-btn` element and, if one is found, returns
`parseOldFormat`; otherwise, for `v2`/`auto`, it looks for a
current-format element and returns `parseNewFormat`.  The DOM query is the
host HTML parser (an external collaborator); the embedding therefore takes
the queried elements — records of the attributes the decoders read — as
structured inputs, while the offset regexes over the raw line text are
embedded character by character. -/

/-- The attributes `parseOldFormat` reads from an old-format element
(`getAttribute` returns the string or null). -/
structure OldTimerEl where
  timerIdAttr : Option String
  dataTimerIdAttr : Option String
  statusAttr : Option String
  dataStatusAttr : Option String
  accumulatedTimeAttr : Option String
  dataAccumulatedTimeAttr : Option String
  currentStartAttr : Option String
  dataCurrentStartAttr : Option String
  deriving DecidableEq, Repr

/-- The fields `parseNewFormat` reads from a current-format element. -/
structure NewTimerEl where
  id : String
  className : String
  datasetDur : Option String
  datasetTs : Option String
  deriving DecidableEq, Repr

/-- The decoded legacy marker: `dur`/`ts` are `parseInt` results, where
`none` stands for NaN (missing or non-numeric attribute). -/
structure LegacyParsed where
  «class» : String
  timerId : String
  dur : Option Int
  ts : Option Int
  beforeIndex : Nat
  afterIndex : Nat
  deriving DecidableEq, Repr

/-- JS `getAttribute(a) || getAttribute(b)`: null and the empty string are
falsy. -/
def jsAttrOr (a b : Option String) : Option String :=
  match a with
  | some s => if s = "" then b else some s
  | none => b

/-- Body of `parseInt` after whitespace skipping: an optional sign, then
the longest run of decimal digits; NaN (here `none`) if that run is
empty. -/
def jsParseIntAux : List Char → Option Int
  | [] => none
  | c :: rest =>
    if c = '-' then
      let ds := rest.takeWhile Char.isDigit
      if ds.isEmpty then none else some (-(digitsVal ds : Int))
    else if c = '+' then
      let ds := rest.takeWhile Char.isDigit
      if ds.isEmpty then none else some ((digitsVal ds : Int))
    else
      let ds := (c :: rest).takeWhile Char.isDigit
      if ds.isEmpty then none else some ((digitsVal ds : Int))

/-- JS `parseInt(s, 10)`: skip leading whitespace, then `jsParseIntAux`. -/
def jsParseInt (s : String) : Option Int :=
  jsParseIntAux (s.data.dropWhile Char.isWhitespace)

/-- First occurrence of the literal `pat`: its index and the remainder
after it. -/
def seekLit (pat : List Char) : List Char → Option (Nat × List Char)
  | [] =>
    match dropLit pat [] with
    | some r => some (0, r)
    | none => none
  | c :: tl =>
    match dropLit pat (c :: tl) with
    | some r => some (0, r)
    | none => (seekLit pat tl).map (fun p => (p.1 + 1, p.2))

/-- Match the legacy offset regex `<span[^>]*ATTR[^>]*>.*?<\/span>` at the
head of `s`, returning the total matched length.  The determinisation is
exact: a `>` before the first `ATTR` occurrence defeats every later
occurrence as well, `[^>]*>` forces the first `>`, and the lazy tail is
the first `</span>` with no newline before it. -/
def spanMatchAt (attrLit : List Char) (s : List Char) : Option Nat :=
  (dropLit "<span".data s).bind fun r1 =>
  (seekLit attrLit r1).bind fun aj =>
  if (r1.take aj.1).contains '>' then none
  else
    (seekLit ['>'] aj.2).bind fun gj =>
    (seekLit litClose gj.2).bind fun cj =>
    if (gj.2.take cj.1).contains '\n' then none
    else some (5 + aj.1 + attrLit.length + gj.1 + 1 + cj.1 + litClose.length)

/-- `lineText.match(regex)` for the legacy offset regexes: leftmost match
with its `[beforeIndex, afterIndex)` offsets. -/
def spanSearch (attrLit : List Char) : List Char → Nat → Option (Nat × Nat)
  | [], i =>
    match spanMatchAt attrLit [] with
    | some len => some (i, i + len)
    | none => none
  | c :: tl, i =>
    match spanMatchAt attrLit (c :: tl) with
    | some len => some (i, i + len)
    | none => spanSearch attrLit tl (i + 1)

/-- The legacy revision has its own `compressId(timestamp)` (src/main.js
lines 726-737): `if (!timestamp) timestamp = Date.now()` replaces every
falsy argument — a missing argument, 0 and NaN alike — by the clock
reading before encoding, so those inputs yield a time-based id.  `none`
models a missing or NaN argument; a negative value keeps the loop from
running and gives the empty string, as in the current revision. -/
def compressIdLegacy (timestamp : Option Int) (nowMs : Int) : String :=
  let t := match timestamp with
           | none => nowMs
           | some v => if v = 0 then nowMs else v
  if t = 0 then "t0"
  else ⟨compressIdAux (t.toNat + 1) t.toNat⟩

/-- For a nonzero numeric argument the legacy `compressId` is the same
deterministic base-62 encoding as the current one, independent of the
clock. -/
theorem compressIdLegacy_some_ne_zero (n : Int) (nowMs : Int) (h : n ≠ 0) :
    compressIdLegacy (some n) nowMs = compressId n := by
  unfold compressIdLegacy compressId
  simp [if_neg h]

/-- `TimerParser.parseOldFormat(lineText, timerEl)` of the legacy revision
(src/main.js lines 1075-1093), decoding ids with the legacy revision
`compressIdLegacy`. -/
def parseOldFormat (lineText : List Char) (timerEl : OldTimerEl) (nowMs : Int) :
    Option LegacyParsed :=
  let oldId := jsAttrOr timerEl.timerIdAttr timerEl.dataTimerIdAttr
  let status := jsAttrOr timerEl.statusAttr timerEl.dataStatusAttr
  let dur := (jsAttrOr timerEl.accumulatedTimeAttr
    timerEl.dataAccumulatedTimeAttr).bind jsParseInt
  let ts := (jsAttrOr timerEl.currentStartAttr
    timerEl.dataCurrentStartAttr).bind jsParseInt
  let newId :=
    match oldId with
    | some s =>
      if s = "" then compressIdLegacy none nowMs
      else compressIdLegacy (jsParseInt s) nowMs
    | none => compressIdLegacy none nowMs
  let attrVal := match oldId with | some s => s | none => "null"
  match spanSearch ("timerId=\"".data ++ attrVal.data ++ ['"']) lineText 0 with
  | none => none
  | some (b, e) =>
    some { «class» := if status = some "Running" then "timer-r" else "timer-p"
           timerId := newId
           dur := dur
           ts := ts
           beforeIndex := b
           afterIndex := e }

/-- `TimerParser.parseNewFormat(lineText, timerEl)` of the legacy revision
(src/main.js lines 1095-1109). -/
def parseNewFormat (lineText : List Char) (timerEl : NewTimerEl) :
    Option LegacyParsed :=
  match spanSearch ("id=\"".data ++ timerEl.id.data ++ ['"']) lineText 0 with
  | none => none
  | some (b, e) =>
    some { «class» := timerEl.className
           timerId := timerEl.id
           dur := timerEl.datasetDur.bind jsParseInt
           ts := timerEl.datasetTs.bind jsParseInt
           beforeIndex := b
           afterIndex := e }

namespace TimerParserLegacy

/-- `TimerParser.parse(lineText, version, targetTimerId)` of the legacy
revision (src/main.js lines 1058-1073): the fixed-priority decoder chain.
`oldEl` and `newEl` are the results of the two `querySelector` calls. -/
def parse (lineText : List Char) (version : String) (oldEl : Option OldTimerEl)
    (newEl : Option NewTimerEl) (nowMs : Int) : Option LegacyParsed :=
  match (if version = "v1" || version = "auto" then oldEl else none) with
  | some el => parseOldFormat lineText el nowMs
  | none =>
    match (if version = "v2" || version = "auto" then newEl else none) with
    | some el => parseNewFormat lineText el
    | none => none

end TimerParserLegacy

theorem isDigit_not_ws (c : Char) (h : c.isDigit = true) : c.isWhitespace = false := by
  cases hw : c.isWhitespace
  · rfl
  · exfalso
    simp [Char.isWhitespace] at hw
    rcases hw with ((rfl | rfl) | rfl) | rfl <;> exact absurd h (by decide)

theorem isDigit_ne_minus (c : Char) (h : c.isDigit = true) : c ≠ '-' := by
  rintro rfl; exact absurd h (by decide)

theorem isDigit_ne_plus (c : Char) (h : c.isDigit = true) : c ≠ '+' := by
  rintro rfl; exact absurd h (by decide)

theorem takeWhile_all (p : Char → Bool) (l : List Char)
    (h : ∀ x ∈ l, p x = true) : l.takeWhile p = l := by
  induction l with
  | nil => rfl
  | cons x xs ih =>
    simp [List.takeWhile_cons, h x (by simp), ih (fun y hy => h y (by simp [hy]))]

theorem natStr_ne_empty (n : Nat) : (⟨natDigits n⟩ : String) ≠ "" :=
  fun hEq => natDigits_ne_nil n (congrArg String.data hEq)

theorem jsAttrOr_some_ne (s : String) (b : Option String) (h : s ≠ "") :
    jsAttrOr (some s) b = some s := by
  show (if s = "" then b else some s) = some s
  rw [if_neg h]

theorem jsParseIntAux_digits (c : Char) (cs : List Char)
    (hdig : ∀ x ∈ c :: cs, x.isDigit = true) :
    jsParseIntAux (c :: cs) = some ((digitsVal (c :: cs) : Int)) := by
  have hcd : c.isDigit = true := hdig c (by simp)
  simp only [jsParseIntAux]
  rw [if_neg (isDigit_ne_minus c hcd), if_neg (isDigit_ne_plus c hcd)]
  simp only [takeWhile_all Char.isDigit (c :: cs) hdig]
  rw [if_neg (by simp)]

theorem jsParseInt_digits (l : List Char) (hl : ∀ x ∈ l, x.isDigit = true)
    (hne : l ≠ []) : jsParseInt ⟨l⟩ = some ((digitsVal l : Int)) := by
  cases l with
  | nil => exact absurd rfl hne
  | cons c cs =>
    have hcd := hl c (by simp)
    have hdw : List.dropWhile Char.isWhitespace (c :: cs) = c :: cs := by
      rw [List.dropWhile_cons, if_neg (by simp [isDigit_not_ws c hcd])]
    show jsParseIntAux (List.dropWhile Char.isWhitespace (c :: cs)) = _
    rw [hdw]
    exact jsParseIntAux_digits c cs hl

theorem jsParseInt_natDigits (n : Nat) : jsParseInt ⟨natDigits n⟩ = some (n : Int) := by
  have h := jsParseInt_digits (natDigits n) (natDigits_digits n) (natDigits_ne_nil n)
  rwa [digitsVal_natDigits] at h

/-- C6 (amended): the legacy parser is a fixed-priority decoder chain —
with `version = auto`, when the current-format query produced nothing the
result is exactly the old-format decode of the found legacy element (and
when only a current-format element is found, its decode); and for every
NONZERO numeric id `n` the old-format decode is the pure, clock-independent
mapping sending `n`, status string `st`, accumulated seconds `a` and start
timestamp `t` to `{class := (if st is Running then running else paused),
id := compressId n, dur := a, ts := t}` together with the offsets of the
matched span.  The restriction `n ≠ 0` is forced by the legacy
`compressId`, which replaces the falsy id value 0 (and NaN) by
`Date.now()` and makes that decode time-dependent (see the
counterexample). -/
theorem c6_legacy_decoder_chain :
    (∀ (line : List Char) (el : OldTimerEl) (newEl : Option NewTimerEl) (nowMs : Int),
      TimerParserLegacy.parse line "auto" (some el) newEl nowMs
        = parseOldFormat line el nowMs) ∧
    (∀ (line : List Char) (nel : NewTimerEl) (nowMs : Int),
      TimerParserLegacy.parse line "auto" none (some nel) nowMs
        = parseNewFormat line nel) ∧
    (∀ (n a t : Nat) (st : String) (line : List Char) (el : OldTimerEl) (nowMs : Int),
      n ≠ 0 →
      el.timerIdAttr = some ⟨natDigits n⟩ →
      el.statusAttr = some st → st ≠ "" →
      el.accumulatedTimeAttr = some ⟨natDigits a⟩ →
      el.currentStartAttr = some ⟨natDigits t⟩ →
      ∀ (b e : Nat),
        spanSearch ("timerId=\"".data ++ natDigits n ++ ['"']) line 0 = some (b, e) →
        parseOldFormat line el nowMs
          = some { «class» := if st = "Running" then "timer-r" else "timer-p"
                   timerId := compressId (n : Int)
                   dur := some (a : Int)
                   ts := some (t : Int)
                   beforeIndex := b
                   afterIndex := e }) := by
  refine ⟨fun _ _ _ _ => rfl, fun _ _ _ => rfl, ?_⟩
  intro n a t st line el nowMs hnz hid hst hstne hacc hts b e hspan
  unfold parseOldFormat
  rw [hid, hst, hacc, hts]
  rw [jsAttrOr_some_ne _ _ (natStr_ne_empty n), jsAttrOr_some_ne _ _ hstne,
    jsAttrOr_some_ne _ _ (natStr_ne_empty a), jsAttrOr_some_ne _ _ (natStr_ne_empty t)]
  simp only [Option.some_bind, jsParseInt_natDigits]
  rw [if_neg (natStr_ne_empty n)]
  rw [compressIdLegacy_some_ne_zero _ nowMs (by exact_mod_cast hnz)]
  rw [show spanSearch ("timerId=\"".data ++ (⟨natDigits n⟩ : String).data ++ ['"']) line 0
      = spanSearch ("timerId=\"".data ++ natDigits n ++ ['"']) line 0 from rfl, hspan]
  simp

/-- C6 witness: the spec example — legacy numeric id 12345, status
`Running`, accumulated 99, start-ts 500 — decodes to
`{id := compressId 12345 = "3d7", dur := 99, ts := 500, status running}`. -/
theorem c6_legacy_decoder_chain_witness :
    parseOldFormat
        "<span class=\"timer-btn\" timerId=\"12345\" Status=\"Running\" AccumulatedTime=\"99\" currentStartTimeStamp=\"500\">old</span>".data
        { timerIdAttr := some "12345", dataTimerIdAttr := none
          statusAttr := some "Running", dataStatusAttr := none
          accumulatedTimeAttr := some "99", dataAccumulatedTimeAttr := none
          currentStartAttr := some "500", dataCurrentStartAttr := none } 0
      = some { «class» := "timer-r"
               timerId := compressId (12345 : Int)
               dur := some (99 : Int)
               ts := some (500 : Int)
               beforeIndex := 0
               afterIndex := 116 } ∧
    compressId (12345 : Int) = "3d7" :=
  ⟨c6_legacy_decoder_chain.2.2 12345 99 500 "Running"
      "<span class=\"timer-btn\" timerId=\"12345\" Status=\"Running\" AccumulatedTime=\"99\" currentStartTimeStamp=\"500\">old</span>".data
      { timerIdAttr := some "12345", dataTimerIdAttr := none
        statusAttr := some "Running", dataStatusAttr := none
        accumulatedTimeAttr := some "99", dataAccumulatedTimeAttr := none
        currentStartAttr := some "500", dataCurrentStartAttr := none } 0
      (by decide) (by decide) (by decide) (by decide) (by decide) (by decide)
      0 116 (by decide),
   by decide⟩

/-- C6 counterexample: a legacy marker with numeric id 0 does not decode
by the claimed pure, repeatable mapping.  The legacy `compressId` replaces
the falsy value 0 by `Date.now()`, so the same marker decodes to different
ids at the clock readings 1000 and 2000 — and in particular never to the
base-62 encoding of 0 itself. -/
theorem c6_counterexample :
    parseOldFormat
        "<span class=\"timer-btn\" timerId=\"0\" Status=\"Running\" AccumulatedTime=\"99\" currentStartTimeStamp=\"500\">x</span>".data
        { timerIdAttr := some "0", dataTimerIdAttr := none
          statusAttr := some "Running", dataStatusAttr := none
          accumulatedTimeAttr := some "99", dataAccumulatedTimeAttr := none
          currentStartAttr := some "500", dataCurrentStartAttr := none } 1000
      ≠ parseOldFormat
        "<span class=\"timer-btn\" timerId=\"0\" Status=\"Running\" AccumulatedTime=\"99\" currentStartTimeStamp=\"500\">x</span>".data
        { timerIdAttr := some "0", dataTimerIdAttr := none
          statusAttr := some "Running", dataStatusAttr := none
          accumulatedTimeAttr := some "99", dataAccumulatedTimeAttr := none
          currentStartAttr := some "500", dataCurrentStartAttr := none } 2000 := by
  decide
